import Mathlib

/-!
# trackmania-bot: the interaction handler of `src/app.js`

A shallow embedding of the Express handler `app.post('/interactions', ...)`, of
`getUpToDateTOTDInfo`, of `embeddedErrorMessage` (all `src/app.js`) and of
`DiscordRequest` (`src/utils.js`).

Modelling conventions:

* JavaScript strings are lists of characters (`Str`).  The handler only splits on
  the BMP characters `;` and `_` and compares with ASCII literals, for which code
  points and UTF-16 code units agree.
* Every asynchronous call is run to completion at the point where the source
  issues it; the handler is one sequential task.  What the outside world answers
  (the data provider, the Discord REST API, `res.send`, the clock, the time zone)
  is read from an `Oracle`.
* Every observable action is appended to a chronological trace of `Event`s.
* A JavaScript exception or promise rejection is an `Err`; a function that can
  throw returns `Except Err _` together with the state reached.
-/

namespace TrackmaniaBot

/-- A JavaScript string, as the list of its characters. -/
abbrev Str := List Char

/-! ## JavaScript numbers and `ToNumber` -/

/-- A JavaScript number.  Finite values are kept exact (a rational): IEEE rounding
and the sign of zero are not represented. -/
inductive JSNum where
  | nan
  | negInf
  | posInf
  | fin (q : ℚ)
  deriving DecidableEq

/-- The JavaScript values that can sit in the handler's `args` array: the strings
produced by `split`, the `undefined` pushed by the `f` branch and the number
pushed by the `l` branch. -/
inductive JSVal where
  | undefined
  | str (s : Str)
  | num (n : JSNum)
  deriving DecidableEq

/-- The binary `-` of JavaScript on numbers. -/
def JSNum.sub : JSNum → JSNum → JSNum
  | .nan, _ => .nan
  | _, .nan => .nan
  | .fin a, .fin b => .fin (a - b)
  | .fin _, .posInf => .negInf
  | .fin _, .negInf => .posInf
  | .posInf, .posInf => .nan
  | .posInf, _ => .posInf
  | .negInf, .negInf => .nan
  | .negInf, _ => .negInf

/-- Code points of ECMAScript `WhiteSpace` and `LineTerminator`. -/
def isJSWhiteSpace (c : Char) : Bool :=
  [9, 10, 11, 12, 13, 32, 160, 5760, 8232, 8233, 8239, 8287, 12288, 65279].contains c.toNat
    || (8192 ≤ c.toNat && c.toNat ≤ 8202)

/-- Strips leading and trailing white space, as `StringToNumber` does. -/
def trimJS (s : Str) : Str :=
  ((s.dropWhile isJSWhiteSpace).reverse.dropWhile isJSWhiteSpace).reverse

/-- Value of a character as a digit in the given base, if it is one. -/
def digitValue (base : Nat) (c : Char) : Option Nat :=
  let v : Nat :=
    if '0' ≤ c ∧ c ≤ '9' then c.toNat - 48
    else if 'a' ≤ c ∧ c ≤ 'z' then c.toNat - 87
    else if 'A' ≤ c ∧ c ≤ 'Z' then c.toNat - 55
    else base
  if v < base then some v else none

/-- Value of a non-empty digit string in the given base. -/
def digitsValue (base : Nat) : Nat → Str → Option Nat
  | acc, [] => some acc
  | acc, c :: cs =>
    match digitValue base c with
    | some v => digitsValue base (acc * base + v) cs
    | none => none

/-- Digits of a non-empty string in the given base, `none` for the empty string. -/
def digitsValue1 (base : Nat) (s : Str) : Option Nat :=
  if s.isEmpty then none else digitsValue base 0 s

/-- Mathematical value of a decimal digit string (0 for the empty string). -/
def decimalValue (s : Str) : Nat :=
  s.foldl (fun acc c => acc * 10 + (c.toNat - 48)) 0

/-- The production `StrUnsignedDecimalLiteral` without `Infinity`: digits, an optional fraction
and an optional exponent. -/
def parseUnsignedDecimal (s : Str) : Option ℚ :=
  let ip := s.takeWhile Char.isDigit
  let r1 := s.dropWhile Char.isDigit
  let fp := match r1 with
    | '.' :: t => t.takeWhile Char.isDigit
    | _ => []
  let r2 := match r1 with
    | '.' :: t => t.dropWhile Char.isDigit
    | _ => r1
  if ip.isEmpty && fp.isEmpty then none
  else
    let mant : ℚ := (decimalValue ip : ℚ) + (decimalValue fp : ℚ) / (10 : ℚ) ^ fp.length
    match r2 with
    | [] => some mant
    | e :: t =>
      if e = 'e' ∨ e = 'E' then
        let neg := match t with
          | '-' :: _ => true
          | _ => false
        let ds := match t with
          | '-' :: u => u
          | '+' :: u => u
          | _ => t
        if ds.isEmpty || !ds.all Char.isDigit then none
        else if neg then some (mant / (10 : ℚ) ^ decimalValue ds)
        else some (mant * (10 : ℚ) ^ decimalValue ds)
      else none

/-- The production `StrUnsignedDecimalLiteral`, `Infinity` included. -/
def parseUnsigned (s : Str) : JSNum :=
  if s = "Infinity".toList then .posInf
  else match parseUnsignedDecimal s with
    | some q => .fin q
    | none => .nan

/-- Negation of a number. -/
def JSNum.neg : JSNum → JSNum
  | .nan => .nan
  | .negInf => .posInf
  | .posInf => .negInf
  | .fin q => .fin (-q)

/-- Integer literal with a radix prefix (`0x`, `0o`, `0b`), which takes no sign. -/
def parseRadix (base : Nat) (ds : Str) : JSNum :=
  match digitsValue1 base ds with
  | some n => .fin n
  | none => .nan

/-- Abstract operation `StringToNumber` of ECMAScript. -/
def stringToNumber (s : Str) : JSNum :=
  match trimJS s with
  | [] => .fin 0
  | '0' :: 'x' :: ds => parseRadix 16 ds
  | '0' :: 'X' :: ds => parseRadix 16 ds
  | '0' :: 'o' :: ds => parseRadix 8 ds
  | '0' :: 'O' :: ds => parseRadix 8 ds
  | '0' :: 'b' :: ds => parseRadix 2 ds
  | '0' :: 'B' :: ds => parseRadix 2 ds
  | '-' :: t => (parseUnsigned t).neg
  | '+' :: t => parseUnsigned t
  | t => parseUnsigned t

/-- Abstract operation `ToNumber` on the values of `JSVal`. -/
def toNumber : JSVal → JSNum
  | .undefined => .nan
  | .str s => stringToNumber s
  | .num n => n

/-- The text a template literal gives for an array element that is a string or is
missing (`undefined`). -/
def templateText : Option Str → Str
  | some s => s
  | none => "undefined".toList

/-! ## `String.prototype.split` and `Array.prototype.join` -/

/-- The call `s.split(sep)` of JavaScript for a one-character separator: the
fields between the occurrences of `sep`, always at least one field. -/
def jsSplit (sep : Char) : Str → List Str
  | [] => [[]]
  | c :: cs =>
    if c = sep then [] :: jsSplit sep cs
    else
      match jsSplit sep cs with
      | [] => [[c]]
      | f :: fs => (c :: f) :: fs

/-- Modelled from the spec: the encoder of control identifiers lives in
`trackmania.js`, which is not among the sources; section 4.1 says that encoding
joins `action` and `args` with the reserved delimiter `;`.  This is
`[action, ...args].join(';')`. -/
def joinWith (sep : Char) : List Str → Str
  | [] => []
  | [x] => x
  | x :: y :: rest => x ++ sep :: joinWith sep (y :: rest)

/-- Modelled from the spec: `encode(action, args[])` of section 4.1. -/
def encodeCustomId (action : Str) (args : List Str) : Str :=
  joinWith ';' (action :: args)

/-- The decoding step of the handler: `componentId.split(';')` (app.js line 197). -/
def decodeCustomId (componentId : Str) : List Str :=
  jsSplit ';' componentId

/-! ## `Date` -/

/-- Milliseconds per day. -/
def msPerDay : Int := 86400000

/-- Abstract operation `DayFromYear` of ECMAScript. -/
def dayFromYear (y : Int) : Int :=
  365 * (y - 1970) + Int.fdiv (y - 1969) 4 - Int.fdiv (y - 1901) 100 + Int.fdiv (y - 1601) 400

/-- Whether `y` is a leap year of the proleptic Gregorian calendar. -/
def isLeapYear (y : Int) : Bool :=
  (Int.fmod y 4 = 0 && Int.fmod y 100 != 0) || Int.fmod y 400 = 0

/-- Number of days of the year before the first day of month `mn` (0 to 11). -/
def daysBeforeMonth (leap : Bool) (mn : Int) : Int :=
  let l : Int := if leap then 1 else 0
  match mn.toNat with
  | 0 => 0
  | 1 => 31
  | 2 => 59 + l
  | 3 => 90 + l
  | 4 => 120 + l
  | 5 => 151 + l
  | 6 => 181 + l
  | 7 => 212 + l
  | 8 => 243 + l
  | 9 => 273 + l
  | 10 => 304 + l
  | _ => 334 + l

/-- Abstract operation `MakeDay` of ECMAScript on integers. -/
def makeDay (year month date : Int) : Int :=
  let ym := year + Int.fdiv month 12
  let mn := Int.fmod month 12
  dayFromYear ym + daysBeforeMonth (isLeapYear ym) mn + date - 1

/-- Abstract operation `TimeClip`: a time value out of range is `NaN` (`none`). -/
def timeClip (t : Int) : Option Int :=
  if -8640000000000000 ≤ t ∧ t ≤ 8640000000000000 then some t else none

/-- The constructor call `new Date(year, monthIndex, day)` on integers.  The
result is the time value of the date (milliseconds since the epoch, `none` for
an invalid date); `tza` is the offset of local time from UTC at a local time. -/
def newDate (tza : Int → Int) (year monthIndex day : Int) : Option Int :=
  let yr := if 0 ≤ year ∧ year ≤ 99 then 1900 + year else year
  let localTime := makeDay yr monthIndex day * msPerDay
  timeClip (localTime - tza localTime)

/-- The comparison `a < b` of two `Date` objects: both are converted to their
time values, and a comparison with `NaN` is false. -/
def dateLt : Option Int → Option Int → Bool
  | some a, some b => decide (a < b)
  | _, _ => false

/-- The constant `startDate = new Date(2020, 6, 1)` (app.js line 63). -/
def startDate (tza : Int → Int) : Option Int :=
  newDate tza 2020 6 1

/-! ## Data of an interaction -/

/-- What can be thrown or be the reason of a rejection. -/
inductive Err where
  /-- A `TypeError` of the runtime, from reading a property of `undefined`. -/
  | typeError
  /-- The value `Error('Date given is before Trackmania came out, silly :)')`. -/
  | dateBeforeStart
  /-- A failure reported by an outside call. -/
  | failure (code : Nat)
  deriving DecidableEq

/-- The record kept in `totd.json`: `endTimestamp` in epoch seconds and the
track information, which the handler never inspects. -/
structure Record where
  endTimestamp : Int
  payload : Nat
  deriving DecidableEq

/-- The object `track_info` built at app.js lines 227 to 231. -/
structure TrackInfo where
  author : JSVal
  groupUid : JSVal
  mapUid : JSVal
  deriving DecidableEq

/-- The `author` object of an embed. -/
structure Author where
  name : JSVal
  deriving DecidableEq

/-- An embed of the source message; `author` may be absent. -/
structure Embed where
  author : Option Author
  deriving DecidableEq

/-- The field `message` of the request body. -/
structure Message where
  channel_id : Str
  id : Str
  embeds : Option (List Embed)
  deriving DecidableEq

/-- An element of `options[0].options`; `value` is an integer. -/
structure Field where
  value : Int
  deriving DecidableEq

/-- An element of `data.options`. -/
structure CmdOption where
  name : Str
  options : Option (List Field)
  deriving DecidableEq

/-- The field `data` of the request body. -/
structure Data where
  name : Option Str
  options : Option (List CmdOption)
  custom_id : Option Str
  values : Option (List Str)
  deriving DecidableEq

/-- The request body `{ type, id, data, token, message }`; an absent field is
`none`. -/
structure Interaction where
  type : Option Nat
  data : Option Data
  token : Str
  message : Option Message
  deriving DecidableEq

/-- The value `InteractionType.APPLICATION_COMMAND`. -/
def APPLICATION_COMMAND : Nat := 2

/-- The value `InteractionType.MESSAGE_COMPONENT`. -/
def MESSAGE_COMPONENT : Nat := 3

/-- The two REST addresses the handler patches. -/
inductive Endpoint where
  /-- The template `webhooks/${APP_ID}/${token}/messages/@original`. -/
  | original (token : Str)
  /-- The template `channels/${message.channel_id}/messages/${message.id}`. -/
  | channelMessage (channelId messageId : Str)
  deriving DecidableEq

/-- The bodies given to `res.send`. -/
inductive Response where
  | pong
  | deferredChannelMessageWithSource
  | channelMessageWithSource
  | deferredUpdateMessage
  deriving DecidableEq

/-- The bodies given to a PATCH. -/
inductive PatchBody where
  /-- The fixed demonstration payload of the `test` command. -/
  | helloWorld
  /-- The error embed of `embeddedErrorMessage`, whose reason is the error. -/
  | errorEmbed (err : Err)
  /-- What `embedTrackInfo` or `leaderboard` resolved to; `none` is `undefined`. -/
  | content (body : Option Nat)
  deriving DecidableEq

/-- The argument `inputDate` of `trackOfTheDay`. -/
inductive DateArg where
  /-- The call without a date. -/
  | absent
  /-- The call with a `Date` object of this time value. -/
  | date (timeValue : Option Int)
  deriving DecidableEq

/-- Observable actions, in the order the handler performs them. -/
inductive Event where
  | send (r : Response)
  | patch (endpoint : Endpoint) (body : PatchBody)
  | errorResponder (endpoint : Endpoint) (err : Err)
  | trackOfTheDay (inputDate : DateArg)
  | embedTrackInfo (track : Option Record)
  | leaderboard (info : TrackInfo) (cursor : JSVal) (flag : Bool) (extra : JSVal)
  | cupOfTheDay
  | getTrackInfo (command : Str) (mapUid extra : JSVal)
  | readFile
  | writeFile (data : Record)
  deriving DecidableEq

/-- The answers of the outside world during one handling. -/
structure Oracle where
  /-- The clock in milliseconds, for `new Date()` and `Date.now()`. -/
  nowMs : Int
  /-- The offset of local time from UTC. -/
  tza : Int → Int
  /-- The value of the expression `InteractionResponseType.PING`. -/
  responsePING : Option Nat
  /-- Whether `res.send` throws. -/
  sendThrows : Option Err
  /-- Outcome of `trackmania.trackOfTheDay`. -/
  trackOfTheDay : DateArg → Except Err Record
  /-- Outcome of `trackmania.embedTrackInfo`. -/
  embedTrackInfo : Option Record → Except Err Nat
  /-- Outcome of `trackmania.leaderboard`. -/
  leaderboard : TrackInfo → JSVal → JSVal → Except Err Nat
  /-- Outcome of `trackmania.cupOfTheDay`. -/
  cupOfTheDay : Except Err Nat
  /-- Outcome of `trackmania.getTrackInfo`. -/
  getTrackInfo : Str → JSVal → JSVal → Except Err Record
  /-- Outcome of the PATCH number `k` of this handling (`none`: `res.ok`). -/
  patch : Nat → Option Err
  /-- Whether `fs.promises.writeFile` rejects. -/
  writeRejects : Option Err
  /-- The reason with which reading an unreadable `totd.json` rejects. -/
  readError : Err

/-- The state threaded through one handling. -/
structure St where
  /-- The actions performed so far, oldest first. -/
  trace : List Event
  /-- The number of PATCH requests issued so far. -/
  patches : Nat
  /-- The record in `totd.json`; `none` when the file cannot be read or parsed. -/
  file : Option Record
  /-- Reasons of rejected promises that nothing ever awaited. -/
  unhandled : List Err
  deriving DecidableEq

/-- The state before the handler starts. -/
def St.init (file : Option Record) : St :=
  { trace := [], patches := 0, file := file, unhandled := [] }

/-- Appends one action to the trace. -/
def St.emit (s : St) (e : Event) : St :=
  { s with trace := s.trace ++ [e] }

/-! ## `DiscordRequest`, `embeddedErrorMessage`, `getUpToDateTOTDInfo` -/

/-- The call `DiscordRequest(endpoint, { method: 'PATCH', body })` of utils.js:
the request is issued, and the call throws when the answer is not `ok`. -/
def DiscordRequest (o : Oracle) (endpoint : Endpoint) (body : PatchBody) (s : St) :
    Except Err Unit × St :=
  let s1 : St := { s.emit (.patch endpoint body) with patches := s.patches + 1 }
  match o.patch s.patches with
  | none => (.ok (), s1)
  | some e => (.error e, s1)

/-- The function `embeddedErrorMessage` (app.js lines 267 to 296): one PATCH of
the error embed, whose failure is logged and swallowed. -/
def embeddedErrorMessage (o : Oracle) (endpoint : Endpoint) (err : Err) (s : St) : St :=
  (DiscordRequest o endpoint (.errorEmbed err) (s.emit (.errorResponder endpoint err))).2

/-- The value `Math.floor(Date.now() / 1000)`. -/
def nowSeconds (o : Oracle) : Int :=
  Int.fdiv o.nowMs 1000

/-- Reading and parsing `totd.json`. -/
def readTotdFile (o : Oracle) (s : St) : Except Err Record × St :=
  match s.file with
  | some json => (.ok json, s.emit .readFile)
  | none => (.error o.readError, s.emit .readFile)

/-- Marks the promise `callback` as never awaited: its rejection is unhandled. -/
def dropCallback (callback : Except Err Record) (s : St) : St :=
  match callback with
  | .ok _ => s
  | .error e => { s with unhandled := s.unhandled ++ [e] }

/-- The function `getUpToDateTOTDInfo(filepath, callback)` (app.js lines 52 to
59).  `callback` is the settled value of the promise passed in.  The file holds
the parsed record: `JSON.parse` undoes `JSON.stringify`. -/
def getUpToDateTOTDInfo (o : Oracle) (callback : Except Err Record) (s : St) :
    Except Err Record × St :=
  match readTotdFile o s with
  | (.error e, s1) => (.error e, dropCallback callback s1)
  | (.ok json, s1) =>
    if json.endTimestamp < nowSeconds o then
      match callback with
      | .error e => (.error e, s1)
      | .ok data =>
        let s2 := s1.emit (.writeFile data)
        match o.writeRejects with
        | some e => (.error e, s2)
        | none => readTotdFile o { s2 with file := some data }
    else (.ok json, dropCallback callback s1)

/-! ## The handler of `POST /interactions` -/

/-- The call `res.send(r)`. -/
def resSend (o : Oracle) (r : Response) (s : St) : Except Err Unit × St :=
  match o.sendThrows with
  | none => (.ok (), s.emit (.send r))
  | some e => (.error e, s.emit (.send r))

/-- The expression `DiscordRequest(endpoint, ...).catch(err =>
embeddedErrorMessage(endpoint, err))`. -/
def patchOrReport (o : Oracle) (endpoint : Endpoint) (body : PatchBody) (s : St) : St :=
  match DiscordRequest o endpoint body s with
  | (.ok _, s1) => s1
  | (.error e, s1) => embeddedErrorMessage o endpoint e s1

/-- Lines 168 to 176: the sub-option `past`.  Returns `track_json`, where `none`
is the `undefined` that the `catch` handler leaves. -/
def totdPast (o : Oracle) (endpoint : Endpoint) (opt : CmdOption) (s : St) :
    Except Err (Option Record) × St :=
  match opt.options with
  | some (f0 :: f1 :: f2 :: _) =>
    let totdDate : Option Int := some o.nowMs
    let built := newDate o.tza f0.value (f1.value - 1) f2.value
    let inputDate := if dateLt totdDate built then totdDate else built
    let s1 :=
      if dateLt totdDate built then s
      else if dateLt built (startDate o.tza) then embeddedErrorMessage o endpoint .dateBeforeStart s
      else s
    let s2 := s1.emit (.trackOfTheDay (.date inputDate))
    match o.trackOfTheDay (.date inputDate) with
    | .ok r => (.ok (some r), s2)
    | .error e => (.ok none, embeddedErrorMessage o endpoint e s2)
  | _ => (.error .typeError, s)

/-- Lines 178 to 180: no sub-option `past`.  The promise
`trackmania.trackOfTheDay(core_service, live_service)` is created before
`getUpToDateTOTDInfo` runs. -/
def totdCached (o : Oracle) (endpoint : Endpoint) (s : St) : Except Err (Option Record) × St :=
  let callback := o.trackOfTheDay .absent
  match getUpToDateTOTDInfo o callback (s.emit (.trackOfTheDay .absent)) with
  | (.ok r, s1) => (.ok (some r), s1)
  | (.error e, s1) => (.ok none, embeddedErrorMessage o endpoint e s1)

/-- Lines 166 to 189: the `totd` command after its `res.send`. -/
def totdBody (o : Oracle) (endpoint : Endpoint) (options : Option (List CmdOption)) (s : St) :
    Except Err Unit × St :=
  match options with
  | some (opt :: _) =>
    match (if opt.name = "past".toList then totdPast o endpoint opt s
           else totdCached o endpoint s) with
    | (.error e, s1) => (.error e, s1)
    | (.ok track_json, s1) =>
      let s2 := s1.emit (.embedTrackInfo track_json)
      match o.embedTrackInfo track_json with
      | .error e => (.error e, s2)
      | .ok body => (.ok (), patchOrReport o endpoint (.content (some body)) s2)
  | _ => (.error .typeError, s)

/-- Lines 81 to 192: the branch `type === InteractionType.APPLICATION_COMMAND`. -/
def commandBranch (o : Oracle) (req : Interaction) (s : St) : Except Err Unit × St :=
  match req.data with
  | none => (.error .typeError, s)
  | some d =>
    let endpoint := Endpoint.original req.token
    if d.name = some "test".toList then
      match resSend o .deferredChannelMessageWithSource s with
      | (.error e, s1) => (.error e, s1)
      | (.ok _, s1) => (.ok (), patchOrReport o endpoint .helloWorld s1)
    else if d.name = some "tucker".toList then
      match resSend o .channelMessageWithSource s with
      | (.error e, s1) => (.ok (), embeddedErrorMessage o endpoint e s1)
      | (.ok _, s1) => (.ok (), s1)
    else if d.name = some "totd".toList then
      match resSend o .deferredChannelMessageWithSource s with
      | (.error e, s1) => (.error e, s1)
      | (.ok _, s1) => totdBody o endpoint d.options s1
    else (.ok (), s)

/-- Element `i` of the array `args`; reading past the end gives `undefined`. -/
def argAt (args : List JSVal) (i : Nat) : JSVal :=
  args.getD i .undefined

/-- Lines 214 to 223: what the leaderboard branch pushes on `args`. -/
def pushPageArgs (tok : Str) (args : List JSVal) (values : Option (List Str)) :
    Except Err (List JSVal) :=
  let lbargs := jsSplit '_' tok
  if lbargs[1]? = some "f".toList then .ok (args ++ [.undefined])
  else if lbargs[1]? = some "l".toList then
    .ok (args ++ [.num (JSNum.sub (.fin 1000) (toNumber (argAt args 2)))])
  else if lbargs[1]? = some "p".toList then
    match values with
    | some (v :: _) => .ok (args ++ (jsSplit ';' v).map JSVal.str)
    | _ => .error .typeError
  else .ok args

/-- The expression `message.embeds[0].author.name`. -/
def firstAuthorName (message : Message) : Except Err JSVal :=
  match message.embeds with
  | some (e :: _) =>
    match e.author with
    | some a => .ok a.name
    | none => .error .typeError
  | _ => .error .typeError

/-- Lines 212 to 241: the branch `args[0].slice(0,2) === 'lb'`. -/
def leaderboardBranch (o : Oracle) (endpoint : Endpoint) (d : Data) (message : Message)
    (fields : List Str) (s : St) : Except Err Unit × St :=
  match pushPageArgs (fields.headD []) (fields.map JSVal.str) d.values with
  | .error e => (.error e, s)
  | .ok args =>
    match firstAuthorName message with
    | .error e => (.error e, s)
    | .ok author =>
      let track_info : TrackInfo :=
        { author := author, groupUid := argAt args 1, mapUid := argAt args 2 }
      let s1 := s.emit (.leaderboard track_info (argAt args 3) true (argAt args 4))
      match o.leaderboard track_info (argAt args 3) (argAt args 4) with
      | .error e => (.error e, s1)
      | .ok body => (.ok (), patchOrReport o endpoint (.content (some body)) s1)

/-- Lines 243 to 255: the branch `args[0] === 'track'`. -/
def trackBranch (o : Oracle) (endpoint : Endpoint) (fields : List Str) (s : St) :
    Except Err Unit × St :=
  let args := fields.map JSVal.str
  let command : Str :=
    if argAt args 1 = .str "totd".toList then
      "Track of the Day - ".toList ++ templateText fields[4]?
    else "Map Search".toList
  let s1 := s.emit (.getTrackInfo command (argAt args 2) (argAt args 3))
  match o.getTrackInfo command (argAt args 2) (argAt args 3) with
  | .error e => (.error e, s1)
  | .ok info =>
    let s2 := s1.emit (.embedTrackInfo (some info))
    match o.embedTrackInfo (some info) with
    | .ok body => (.ok (), patchOrReport o endpoint (.content (some body)) s2)
    | .error e =>
      (.ok (), patchOrReport o endpoint (.content none) (embeddedErrorMessage o endpoint e s2))

/-- Lines 194 to 257: the branch `type === InteractionType.MESSAGE_COMPONENT`. -/
def componentBranch (o : Oracle) (req : Interaction) (s : St) : Except Err Unit × St :=
  match req.data, req.message with
  | some d, some message =>
    match d.custom_id with
    | none => (.error .typeError, s)
    | some componentId =>
      let endpoint := Endpoint.channelMessage message.channel_id message.id
      let fields := decodeCustomId componentId
      match resSend o .deferredUpdateMessage s with
      | (.error e, s1) => (.error e, s1)
      | (.ok _, s1) =>
        let tok := fields.headD []
        if tok = "test".toList then (.ok (), s1)
        else if tok = "cotd".toList then
          match o.cupOfTheDay with
          | .ok _ => (.ok (), s1.emit .cupOfTheDay)
          | .error e => (.error e, s1.emit .cupOfTheDay)
        else if tok.take 2 = "lb".toList then leaderboardBranch o endpoint d message fields s1
        else if tok = "track".toList then trackBranch o endpoint fields s1
        else (.ok (), s1)
  | _, _ => (.error .typeError, s)

/-- The handler `app.post('/interactions', ..., async (req, res) => ...)` (app.js
lines 71 to 258).  The first component is `.ok` when the handler's promise is
fulfilled and `.error` when it is rejected, which nothing catches. -/
def interactions (o : Oracle) (req : Interaction) (s : St) : Except Err Unit × St :=
  if req.type = o.responsePING then resSend o .pong s
  else
    match (if req.type = some APPLICATION_COMMAND then commandBranch o req s
           else (.ok (), s)) with
    | (.error e, s1) => (.error e, s1)
    | (.ok _, s1) =>
      if req.type = some MESSAGE_COMPONENT then componentBranch o req s1 else (.ok (), s1)

/-! ## Observations on a trace -/

/-- The arguments of the calls of `trackmania.trackOfTheDay`, in order. -/
def trackOfTheDayCalls (t : List Event) : List DateArg :=
  t.filterMap fun e =>
    match e with
    | .trackOfTheDay d => some d
    | _ => none

/-- The arguments `(track_info, args[3], args[4])` of the calls of
`trackmania.leaderboard`, in order. -/
def leaderboardCalls (t : List Event) : List (TrackInfo × JSVal × JSVal) :=
  t.filterMap fun e =>
    match e with
    | .leaderboard info cursor _ extra => some (info, cursor, extra)
    | _ => none

/-- The invocations of `embeddedErrorMessage`, in order. -/
def errorResponderCalls (t : List Event) : List Err :=
  t.filterMap fun e =>
    match e with
    | .errorResponder _ err => some err
    | _ => none

/-- Whether an action is a `res.send`. -/
def Event.isSend : Event → Bool
  | .send _ => true
  | _ => false

/-- Whether an action is a PATCH. -/
def Event.isPatch : Event → Bool
  | .patch _ _ => true
  | _ => false

/-- Number of calls of `res.send` in a trace. -/
def sendCount (t : List Event) : Nat :=
  t.countP Event.isSend

/-- Whether every PATCH of the trace is preceded by a `res.send`; `sent` tells
whether one was seen before the trace starts. -/
def patchesFollowSend : Bool → List Event → Bool
  | _, [] => true
  | sent, e :: es =>
    if e.isSend then patchesFollowSend true es
    else if e.isPatch then sent && patchesFollowSend sent es
    else patchesFollowSend sent es

/-- The trace of `s2` is the trace of `s1` followed by actions that are not a
`res.send`. -/
def NoSendExt (s1 s2 : St) : Prop :=
  ∃ extra, s2.trace = s1.trace ++ extra ∧ ∀ e ∈ extra, e.isSend = false

/-- A trace that is empty, or starts with its only `res.send`. -/
def SendFirst (t : List Event) : Prop :=
  t = [] ∨ ∃ r extra, t = .send r :: extra ∧ ∀ e ∈ extra, e.isSend = false

/-! ## Concrete inputs -/

/-- An outside world in which every call succeeds: the clock reads
2023-12-01T12:00:00Z, local time is UTC, and `InteractionResponseType.PING` is
`undefined`. -/
def calmOracle : Oracle :=
  { nowMs := 1701432000000
    tza := fun _ => 0
    responsePING := none
    sendThrows := none
    trackOfTheDay := fun _ => .ok { endTimestamp := 1701450000, payload := 1 }
    embedTrackInfo := fun _ => .ok 2
    leaderboard := fun _ _ _ => .ok 3
    cupOfTheDay := .ok 4
    getTrackInfo := fun _ _ _ => .ok { endTimestamp := 0, payload := 5 }
    patch := fun _ => none
    writeRejects := none
    readError := .failure 0 }

/-- The outside world of `calmOracle`, except that `trackmania.trackOfTheDay`
rejects. -/
def rejectingOracle : Oracle :=
  { calmOracle with trackOfTheDay := fun _ => .error (.failure 1) }

/-- A source message with one embed, whose author is named `Nadeo`. -/
def sourceMessage : Message :=
  { channel_id := "C1".toList
    id := "42".toList
    embeds := some [{ author := some { name := .str "Nadeo".toList } }] }

/-- A `MessageComponent` interaction on `sourceMessage` with this `custom_id`. -/
def componentRequest (customId : Str) : Interaction :=
  { type := some MESSAGE_COMPONENT
    data := some { name := none, options := none, custom_id := some customId, values := none }
    token := "tok".toList
    message := some sourceMessage }

/-- A `totd` command with these options. -/
def totdRequest (options : List CmdOption) : Interaction :=
  { type := some APPLICATION_COMMAND
    data := some
      { name := some "totd".toList, options := some options, custom_id := none, values := none }
    token := "tok".toList
    message := none }

/-- The sub-option `past` with the fields year, month, day. -/
def pastOption (year month day : Int) : CmdOption :=
  { name := "past".toList
    options := some [{ value := year }, { value := month }, { value := day }] }

/-- A record that is not stale for the clock of `calmOracle`. -/
def freshRecord : Record :=
  { endTimestamp := 1701450000, payload := 9 }

/-- A record that is stale for the clock of `calmOracle`. -/
def staleRecord : Record :=
  { endTimestamp := 1701360000, payload := 8 }

/-- The text of a control identifier before its first `;`. -/
def leadingToken (id : Str) : Str :=
  id.takeWhile fun c => c != ';'

/-! ## Lemmas on `split` -/

theorem jsSplit_ne_nil (sep : Char) (s : Str) : jsSplit sep s ≠ [] := by
  induction s with
  | nil => simp [jsSplit]
  | cons c cs ih =>
    unfold jsSplit
    split
    · simp
    · split
      · simp
      · simp

theorem jsSplit_of_not_mem (sep : Char) (s : Str) (h : sep ∉ s) : jsSplit sep s = [s] := by
  induction s with
  | nil => simp [jsSplit]
  | cons c cs ih =>
    have hc : c ≠ sep := fun hEq => h (by simp [hEq])
    have hcs : sep ∉ cs := fun hMem => h (List.mem_cons_of_mem _ hMem)
    simp [jsSplit, hc, ih hcs]

theorem jsSplit_append_sep (sep : Char) (a rest : Str) (h : sep ∉ a) :
    jsSplit sep (a ++ sep :: rest) = a :: jsSplit sep rest := by
  induction a with
  | nil => simp [jsSplit]
  | cons c cs ih =>
    have hc : c ≠ sep := fun hEq => h (by simp [hEq])
    have hcs : sep ∉ cs := fun hMem => h (List.mem_cons_of_mem _ hMem)
    simp [jsSplit, hc, ih hcs]

theorem jsSplit_joinWith (sep : Char) (x : Str) (xs : List Str)
    (h : ∀ y ∈ x :: xs, sep ∉ y) : jsSplit sep (joinWith sep (x :: xs)) = x :: xs := by
  induction xs generalizing x with
  | nil => exact jsSplit_of_not_mem sep x (h x (by simp))
  | cons y ys ih =>
    have hx : sep ∉ x := h x (by simp)
    have hys : ∀ z ∈ y :: ys, sep ∉ z := fun z hz => h z (List.mem_cons_of_mem _ hz)
    simp only [joinWith]
    rw [jsSplit_append_sep sep x _ hx, ih y hys]

/-! ## The control-identifier codec -/

/-- C6: decoding an encoded control identifier gives back the action and the
arguments, in the same number and order, when none of them contains `;`. -/
theorem decode_encode_roundtrip (action : Str) (args : List Str)
    (h : ∀ x ∈ action :: args, ';' ∉ x) :
    decodeCustomId (encodeCustomId action args) = action :: args :=
  jsSplit_joinWith ';' action args h

theorem decode_encode_roundtrip_witness :
    decodeCustomId (encodeCustomId "lb_f".toList ["G1".toList, "M1".toList])
      = "lb_f".toList :: ["G1".toList, "M1".toList] :=
  decode_encode_roundtrip "lb_f".toList ["G1".toList, "M1".toList] (by decide)

/-! ## The cache of the track of the day -/

/-- C3: when the file can be read and written and the promise passed in resolves
to a record that is not stale, `getUpToDateTOTDInfo` returns a record that is not
stale. -/
theorem getUpToDateTOTDInfo_not_stale (o : Oracle) (s : St) (persisted data : Record)
    (hfile : s.file = some persisted) (hwrite : o.writeRejects = none)
    (hdata : nowSeconds o ≤ data.endTimestamp) :
    ∃ r, (getUpToDateTOTDInfo o (.ok data) s).1 = .ok r ∧ nowSeconds o ≤ r.endTimestamp := by
  by_cases hstale : persisted.endTimestamp < nowSeconds o
  · refine ⟨data, ?_, hdata⟩
    simp [getUpToDateTOTDInfo, readTotdFile, hfile, hstale, hwrite, St.emit]
  · refine ⟨persisted, ?_, not_lt.mp hstale⟩
    simp [getUpToDateTOTDInfo, readTotdFile, hfile, hstale, dropCallback]

/-- C4: when the persisted record is not stale, `getUpToDateTOTDInfo` returns it,
reads the file once, writes nothing and leaves the file as it was, whatever the
promise passed in settles to. -/
theorem getUpToDateTOTDInfo_fresh (o : Oracle) (callback : Except Err Record) (s : St)
    (persisted : Record) (hfile : s.file = some persisted)
    (hfresh : nowSeconds o ≤ persisted.endTimestamp) :
    (getUpToDateTOTDInfo o callback s).1 = .ok persisted ∧
      (getUpToDateTOTDInfo o callback s).2.trace = s.trace ++ [.readFile] ∧
      (getUpToDateTOTDInfo o callback s).2.file = s.file := by
  have hstale : ¬ persisted.endTimestamp < nowSeconds o := not_lt.mpr hfresh
  cases callback <;>
    simp [getUpToDateTOTDInfo, readTotdFile, hfile, hstale, dropCallback, St.emit]

/-! ## One initial response, patches after it -/

theorem NoSendExt.refl (s : St) : NoSendExt s s :=
  ⟨[], by simp, by simp⟩

theorem NoSendExt.trans {a b c : St} (h1 : NoSendExt a b) (h2 : NoSendExt b c) :
    NoSendExt a c := by
  obtain ⟨x, hx, hxs⟩ := h1
  obtain ⟨y, hy, hys⟩ := h2
  refine ⟨x ++ y, by rw [hy, hx, List.append_assoc], ?_⟩
  intro e he
  rcases List.mem_append.mp he with h | h
  · exact hxs e h
  · exact hys e h

theorem NoSendExt.of_trace_eq {a b : St} (h : b.trace = a.trace) : NoSendExt a b :=
  ⟨[], by simp [h], by simp⟩

theorem NoSendExt.emit (s : St) (e : Event) (he : e.isSend = false) :
    NoSendExt s (s.emit e) :=
  ⟨[e], rfl, by simpa using he⟩

theorem DiscordRequest_noSend (o : Oracle) (ep : Endpoint) (b : PatchBody) (s : St) :
    NoSendExt s (DiscordRequest o ep b s).2 := by
  refine ⟨[.patch ep b], ?_, by simp [Event.isSend]⟩
  unfold DiscordRequest
  cases o.patch s.patches <;> rfl

theorem embeddedErrorMessage_noSend (o : Oracle) (ep : Endpoint) (err : Err) (s : St) :
    NoSendExt s (embeddedErrorMessage o ep err s) :=
  (NoSendExt.emit s (.errorResponder ep err) rfl).trans (DiscordRequest_noSend o ep _ _)

theorem patchOrReport_noSend (o : Oracle) (ep : Endpoint) (b : PatchBody) (s : St) :
    NoSendExt s (patchOrReport o ep b s) := by
  have h := DiscordRequest_noSend o ep b s
  unfold patchOrReport
  rcases hd : DiscordRequest o ep b s with ⟨r, s1⟩
  rw [hd] at h
  cases r with
  | ok u => exact h
  | error e => exact h.trans (embeddedErrorMessage_noSend o ep e s1)

theorem readTotdFile_noSend (o : Oracle) (s : St) : NoSendExt s (readTotdFile o s).2 := by
  unfold readTotdFile
  cases s.file <;> exact NoSendExt.emit s .readFile rfl

theorem dropCallback_noSend (callback : Except Err Record) (s : St) :
    NoSendExt s (dropCallback callback s) := by
  cases callback <;> exact NoSendExt.of_trace_eq rfl

theorem getUpToDateTOTDInfo_noSend (o : Oracle) (callback : Except Err Record) (s : St) :
    NoSendExt s (getUpToDateTOTDInfo o callback s).2 := by
  have hr := readTotdFile_noSend o s
  unfold getUpToDateTOTDInfo
  rcases hd : readTotdFile o s with ⟨r, s1⟩
  rw [hd] at hr
  cases r with
  | error e => exact hr.trans (dropCallback_noSend callback s1)
  | ok json =>
    simp only
    split
    · cases callback with
      | error e => exact hr
      | ok data =>
        simp only
        have hw : NoSendExt s (s1.emit (.writeFile data)) :=
          hr.trans (NoSendExt.emit s1 _ rfl)
        cases o.writeRejects with
        | some e => exact hw
        | none =>
          refine hw.trans ?_
          exact (NoSendExt.of_trace_eq (a := s1.emit (.writeFile data)) rfl).trans
            (readTotdFile_noSend o _)
    · exact hr.trans (dropCallback_noSend callback s1)

theorem totdPast_noSend (o : Oracle) (ep : Endpoint) (opt : CmdOption) (s : St) :
    NoSendExt s (totdPast o ep opt s).2 := by
  unfold totdPast
  split
  · rename_i f0 f1 f2 more _
    simp only
    have h1 : NoSendExt s
        (if dateLt (some o.nowMs) (newDate o.tza f0.value (f1.value - 1) f2.value) = true then s
         else if dateLt (newDate o.tza f0.value (f1.value - 1) f2.value) (startDate o.tza) = true
           then embeddedErrorMessage o ep .dateBeforeStart s
         else s) := by
      split
      · exact NoSendExt.refl s
      · split
        · exact embeddedErrorMessage_noSend o ep _ s
        · exact NoSendExt.refl s
    have h2 := h1.trans (NoSendExt.emit _ (.trackOfTheDay (.date
      (if dateLt (some o.nowMs) (newDate o.tza f0.value (f1.value - 1) f2.value) = true
        then some o.nowMs else newDate o.tza f0.value (f1.value - 1) f2.value))) rfl)
    split
    · exact h2
    · exact h2.trans (embeddedErrorMessage_noSend o ep _ _)
  · exact NoSendExt.refl s

theorem totdCached_noSend (o : Oracle) (ep : Endpoint) (s : St) :
    NoSendExt s (totdCached o ep s).2 := by
  have h := (NoSendExt.emit s (.trackOfTheDay .absent) rfl).trans
    (getUpToDateTOTDInfo_noSend o (o.trackOfTheDay .absent) (s.emit (.trackOfTheDay .absent)))
  simp only [totdCached]
  rcases hd : getUpToDateTOTDInfo o (o.trackOfTheDay .absent) (s.emit (.trackOfTheDay .absent))
    with ⟨r, s1⟩
  rw [hd] at h
  cases r with
  | ok r => exact h
  | error e => exact h.trans (embeddedErrorMessage_noSend o ep e s1)

theorem totdBody_noSend (o : Oracle) (ep : Endpoint) (options : Option (List CmdOption))
    (s : St) : NoSendExt s (totdBody o ep options s).2 := by
  unfold totdBody
  split
  · rename_i opt rest
    have h : NoSendExt s (if opt.name = "past".toList then totdPast o ep opt s
        else totdCached o ep s).2 := by
      split
      · exact totdPast_noSend o ep opt s
      · exact totdCached_noSend o ep s
    rcases hd : (if opt.name = "past".toList then totdPast o ep opt s
        else totdCached o ep s) with ⟨r, s1⟩
    rw [hd] at h
    cases r with
    | error e => exact h
    | ok tj =>
      simp only
      have h2 := h.trans (NoSendExt.emit s1 (.embedTrackInfo tj) rfl)
      cases o.embedTrackInfo tj with
      | error e => exact h2
      | ok body => exact h2.trans (patchOrReport_noSend o ep _ _)
  · exact NoSendExt.refl s

theorem leaderboardBranch_noSend (o : Oracle) (ep : Endpoint) (d : Data) (message : Message)
    (fields : List Str) (s : St) :
    NoSendExt s (leaderboardBranch o ep d message fields s).2 := by
  unfold leaderboardBranch
  split
  · exact NoSendExt.refl s
  · split
    · exact NoSendExt.refl s
    · simp only
      split
      · exact NoSendExt.emit s _ (by rfl)
      · exact (NoSendExt.emit s _ (by rfl)).trans (patchOrReport_noSend o ep _ _)

theorem trackBranch_noSend (o : Oracle) (ep : Endpoint) (fields : List Str) (s : St) :
    NoSendExt s (trackBranch o ep fields s).2 := by
  unfold trackBranch
  simp only
  split
  · exact NoSendExt.emit s _ (by rfl)
  · split
    · exact ((NoSendExt.emit s _ (by rfl)).trans (NoSendExt.emit _ _ (by rfl))).trans
        (patchOrReport_noSend o ep _ _)
    · exact (((NoSendExt.emit s _ (by rfl)).trans (NoSendExt.emit _ _ (by rfl))).trans
        (embeddedErrorMessage_noSend o ep _ _)).trans (patchOrReport_noSend o ep _ _)

theorem resSend_trace (o : Oracle) (r : Response) (s : St) :
    (resSend o r s).2.trace = s.trace ++ [.send r] := by
  unfold resSend
  cases o.sendThrows <;> rfl

theorem SendFirst.of_noSendExt {s1 s2 : St} {r : Response} (h1 : s1.trace = [.send r])
    (h : NoSendExt s1 s2) : SendFirst s2.trace := by
  obtain ⟨extra, hx, hxs⟩ := h
  exact Or.inr ⟨r, extra, by rw [hx, h1]; rfl, hxs⟩

theorem commandBranch_sendFirst (o : Oracle) (req : Interaction) (s : St)
    (hs : s.trace = []) : SendFirst (commandBranch o req s).2.trace := by
  unfold commandBranch
  cases req.data with
  | none => exact Or.inl hs
  | some d =>
    simp only
    split
    · have ht := resSend_trace o .deferredChannelMessageWithSource s
      rcases hd : resSend o .deferredChannelMessageWithSource s with ⟨r, s1⟩
      rw [hd, hs] at ht
      cases r with
      | error e => exact SendFirst.of_noSendExt ht (NoSendExt.refl s1)
      | ok u => exact SendFirst.of_noSendExt ht (patchOrReport_noSend o _ _ s1)
    · split
      · have ht := resSend_trace o .channelMessageWithSource s
        rcases hd : resSend o .channelMessageWithSource s with ⟨r, s1⟩
        rw [hd, hs] at ht
        cases r with
        | error e => exact SendFirst.of_noSendExt ht (embeddedErrorMessage_noSend o _ e s1)
        | ok u => exact SendFirst.of_noSendExt ht (NoSendExt.refl s1)
      · split
        · have ht := resSend_trace o .deferredChannelMessageWithSource s
          rcases hd : resSend o .deferredChannelMessageWithSource s with ⟨r, s1⟩
          rw [hd, hs] at ht
          cases r with
          | error e => exact SendFirst.of_noSendExt ht (NoSendExt.refl s1)
          | ok u => exact SendFirst.of_noSendExt ht (totdBody_noSend o _ d.options s1)
        · exact Or.inl hs

theorem componentBranch_sendFirst (o : Oracle) (req : Interaction) (s : St)
    (hs : s.trace = []) : SendFirst (componentBranch o req s).2.trace := by
  unfold componentBranch
  split
  · rename_i d message _ _
    cases d.custom_id with
    | none => exact Or.inl hs
    | some componentId =>
      simp only
      have ht := resSend_trace o .deferredUpdateMessage s
      rcases hd : resSend o .deferredUpdateMessage s with ⟨r, s1⟩
      rw [hd, hs] at ht
      cases r with
      | error e => exact SendFirst.of_noSendExt ht (NoSendExt.refl s1)
      | ok u =>
        simp only
        split
        · exact SendFirst.of_noSendExt ht (NoSendExt.refl s1)
        · split
          · cases o.cupOfTheDay <;>
              exact SendFirst.of_noSendExt ht (NoSendExt.emit s1 .cupOfTheDay rfl)
          · split
            · exact SendFirst.of_noSendExt ht (leaderboardBranch_noSend o _ d message _ s1)
            · split
              · exact SendFirst.of_noSendExt ht (trackBranch_noSend o _ _ s1)
              · exact SendFirst.of_noSendExt ht (NoSendExt.refl s1)
  · exact Or.inl hs

theorem interactions_sendFirst (o : Oracle) (req : Interaction) (file : Option Record) :
    SendFirst (interactions o req (St.init file)).2.trace := by
  unfold interactions
  split
  · exact Or.inr ⟨.pong, [], by rw [resSend_trace]; rfl, by simp⟩
  · by_cases hc : req.type = some APPLICATION_COMMAND
    · have hm : ¬ req.type = some MESSAGE_COMPONENT := by
        rw [hc]; decide
      have h := commandBranch_sendFirst o req (St.init file) rfl
      simp only [hc, if_true, hm, if_false]
      rcases hd : commandBranch o req (St.init file) with ⟨r, s1⟩
      rw [hd] at h
      cases r <;> exact h
    · simp only [hc, if_false]
      split
      · exact componentBranch_sendFirst o req (St.init file) rfl
      · exact Or.inl rfl

theorem patchesFollowSend_of_noSend (extra : List Event) (h : ∀ e ∈ extra, e.isSend = false) :
    patchesFollowSend true extra = true := by
  induction extra with
  | nil => rfl
  | cons e es ih =>
    have he : e.isSend = false := h e (by simp)
    have hes : ∀ x ∈ es, x.isSend = false := fun x hx => h x (List.mem_cons_of_mem _ hx)
    simp [patchesFollowSend, he, ih hes]

theorem countP_isSend_of_noSend (extra : List Event) (h : ∀ e ∈ extra, e.isSend = false) :
    extra.countP Event.isSend = 0 := by
  rw [List.countP_eq_zero]
  intro e he
  simp [h e he]

/-- C10: in one handling `res.send` is called at most once, and every PATCH
comes after it, whatever the interaction is and whatever the outside calls
answer. -/
theorem interactions_one_response_then_patches (o : Oracle) (req : Interaction)
    (file : Option Record) :
    sendCount (interactions o req (St.init file)).2.trace ≤ 1 ∧
      patchesFollowSend false (interactions o req (St.init file)).2.trace = true := by
  rcases interactions_sendFirst o req file with h | ⟨r, extra, h, hx⟩
  · rw [h]
    exact ⟨by simp [sendCount], rfl⟩
  · rw [h]
    constructor
    · simp [sendCount, List.countP_cons, Event.isSend, countP_isSend_of_noSend extra hx]
    · simp [patchesFollowSend, Event.isSend, patchesFollowSend_of_noSend extra hx]

/-! ## The leaderboard controls -/

theorem decode_three_fields (tok G M : Str) (htok : ';' ∉ tok) (hG : ';' ∉ G) (hM : ';' ∉ M) :
    decodeCustomId (tok ++ ';' :: (G ++ ';' :: M)) = [tok, G, M] := by
  unfold decodeCustomId
  rw [jsSplit_append_sep ';' tok _ htok, jsSplit_append_sep ';' G _ hG,
    jsSplit_of_not_mem ';' M hM]

theorem embeddedErrorMessage_trace (o : Oracle) (ep : Endpoint) (err : Err) (s : St) :
    (embeddedErrorMessage o ep err s).trace
      = s.trace ++ [.errorResponder ep err, .patch ep (.errorEmbed err)] := by
  unfold embeddedErrorMessage DiscordRequest
  cases o.patch (s.emit (.errorResponder ep err)).patches <;> simp [St.emit]

theorem leaderboardCalls_patchOrReport (o : Oracle) (ep : Endpoint) (b : PatchBody) (s : St) :
    leaderboardCalls (patchOrReport o ep b s).trace = leaderboardCalls s.trace := by
  unfold patchOrReport DiscordRequest
  cases o.patch s.patches with
  | none => simp [leaderboardCalls, St.emit]
  | some err => simp [embeddedErrorMessage_trace, leaderboardCalls, St.emit]

/-- C7: a component interaction whose `custom_id` is `lb_f;G;M` calls
`trackmania.leaderboard` once, with the author name of the first embed of the
source message, group `G`, map `M`, and an `undefined` cursor. -/
theorem lb_f_single_fetch (o : Oracle) (req : Interaction) (file : Option Record) (d : Data)
    (message : Message) (e : Embed) (rest : List Embed) (a : Author) (G M : Str)
    (hping : req.type ≠ o.responsePING) (htype : req.type = some MESSAGE_COMPONENT)
    (hdata : req.data = some d) (hmsg : req.message = some message)
    (hid : d.custom_id = some ("lb_f".toList ++ ';' :: (G ++ ';' :: M)))
    (hG : ';' ∉ G) (hM : ';' ∉ M)
    (hemb : message.embeds = some (e :: rest)) (hauth : e.author = some a)
    (hsend : o.sendThrows = none) :
    leaderboardCalls (interactions o req (St.init file)).2.trace =
      [({ author := a.name, groupUid := .str G, mapUid := .str M }, .undefined, .undefined)] := by
  have hsplit := decode_three_fields "lb_f".toList G M (by decide) hG hM
  have h1 : ¬ "lb_f".toList = "test".toList := by decide
  have h2 : ¬ "lb_f".toList = "cotd".toList := by decide
  have h3 : List.take 2 "lb_f".toList = "lb".toList := by decide
  have h4 : (jsSplit '_' "lb_f".toList)[1]? = some "f".toList := by decide
  have hc : ¬ some MESSAGE_COMPONENT = some APPLICATION_COMMAND := by decide
  have hping2 : ¬ some MESSAGE_COMPONENT = o.responsePING := by rw [← htype]; exact hping
  have hargs : ∀ x : JSVal, List.map JSVal.str ["lb_f".toList, G, M] ++ [x]
      = [.str "lb_f".toList, .str G, .str M, x] := fun _ => rfl
  simp only [interactions, htype, if_neg hping2, if_neg hc, if_true, componentBranch, hdata, hmsg,
    hid, hsplit, resSend, hsend, List.headD_cons, if_neg h1, if_neg h2, if_pos h3,
    leaderboardBranch, pushPageArgs, h4, firstAuthorName, hemb, hauth]
  simp only [hargs, argAt, List.getD_cons_succ, List.getD_cons_zero, List.getD_nil]
  cases o.leaderboard { author := a.name, groupUid := .str G, mapUid := .str M }
      .undefined .undefined with
  | error err => simp [leaderboardCalls, St.emit, St.init]
  | ok body =>
    simp only [leaderboardCalls_patchOrReport]
    simp [leaderboardCalls, St.emit, St.init]

theorem lb_f_single_fetch_witness :
    leaderboardCalls
      (interactions calmOracle (componentRequest ("lb_f".toList ++ ';' :: ("G1".toList ++ ';' :: "M1".toList)))
        (St.init none)).2.trace =
      [({ author := .str "Nadeo".toList, groupUid := .str "G1".toList,
          mapUid := .str "M1".toList }, .undefined, .undefined)] :=
  lb_f_single_fetch calmOracle _ none _ sourceMessage _ [] { name := .str "Nadeo".toList }
    "G1".toList "M1".toList (by decide) rfl rfl rfl rfl (by decide) (by decide) rfl rfl rfl

/-- C1, on the code: for `custom_id` `lb_l_250;G1;M1` the handler subtracts
`args[2]`, the map id `M1`, from 1000, so the cursor given to
`trackmania.leaderboard` is `NaN`, not 750. -/
theorem lb_l_cursor_subtracts_map_id :
    leaderboardCalls
      (interactions calmOracle (componentRequest "lb_l_250;G1;M1".toList) (St.init none)).2.trace =
      [({ author := .str "Nadeo".toList, groupUid := .str "G1".toList,
          mapUid := .str "M1".toList }, .num .nan, .undefined)] := by
  decide

/-! ## Unrecognized control identifiers -/

theorem head_decodeCustomId (id : Str) : (decodeCustomId id).headD [] = leadingToken id := by
  unfold decodeCustomId leadingToken
  induction id with
  | nil => rfl
  | cons c cs ih =>
    by_cases hc : c = ';'
    · simp [jsSplit, hc]
    · have hne := jsSplit_ne_nil ';' cs
      cases hs : jsSplit ';' cs with
      | nil => exact absurd hs hne
      | cons f fs =>
        rw [hs] at ih
        simp only [List.headD_cons] at ih
        simp [jsSplit, hc, hs, ih]

/-- C9, amended: a component interaction whose leading token is not `test`,
`cotd` or `track` and does not begin with `lb` gets the deferred-update
acknowledgement and nothing else: no fetch, no PATCH, no failure. -/
theorem unrecognized_token_only_acknowledged (o : Oracle) (req : Interaction)
    (file : Option Record) (d : Data) (message : Message) (id : Str)
    (hping : req.type ≠ o.responsePING) (htype : req.type = some MESSAGE_COMPONENT)
    (hdata : req.data = some d) (hmsg : req.message = some message)
    (hid : d.custom_id = some id) (hsend : o.sendThrows = none)
    (h1 : leadingToken id ≠ "test".toList) (h2 : leadingToken id ≠ "cotd".toList)
    (h3 : leadingToken id ≠ "track".toList) (h4 : (leadingToken id).take 2 ≠ "lb".toList) :
    interactions o req (St.init file) =
      (.ok (), { trace := [.send .deferredUpdateMessage], patches := 0, file := file,
                 unhandled := [] }) := by
  have hping2 : ¬ some MESSAGE_COMPONENT = o.responsePING := by rw [← htype]; exact hping
  have hc : ¬ some MESSAGE_COMPONENT = some APPLICATION_COMMAND := by decide
  simp only [interactions, htype, if_neg hping2, if_neg hc, if_true, componentBranch, hdata, hmsg,
    hid, resSend, hsend, head_decodeCustomId, if_neg h1, if_neg h2, if_neg h3, if_neg h4]
  rfl

theorem unrecognized_token_only_acknowledged_witness :
    interactions calmOracle (componentRequest "back".toList) (St.init none) =
      (.ok (), { trace := [.send .deferredUpdateMessage], patches := 0, file := none,
                 unhandled := [] }) :=
  unrecognized_token_only_acknowledged calmOracle _ none _ sourceMessage "back".toList
    (by decide) rfl rfl rfl rfl rfl (by decide) (by decide) (by decide) (by decide)

/-- C9, as stated, fails: the leading token `lb_x` is none of `test`, `cotd`,
`track`, `lb_f`, `lb_p` and does not begin with `lb_l`, yet the handler fetches a
leaderboard and issues a PATCH after the acknowledgement. -/
theorem lb_prefixed_token_still_fetches :
    leadingToken "lb_x;G1;M1".toList ∉
        ["test".toList, "cotd".toList, "track".toList, "lb_f".toList, "lb_p".toList] ∧
      (leadingToken "lb_x;G1;M1".toList).take 4 ≠ "lb_l".toList ∧
      interactions calmOracle (componentRequest "lb_x;G1;M1".toList) (St.init none) =
        (.ok (),
          { trace :=
              [.send .deferredUpdateMessage,
               .leaderboard
                 { author := .str "Nadeo".toList, groupUid := .str "G1".toList,
                   mapUid := .str "M1".toList } .undefined true .undefined,
               .patch (.channelMessage "C1".toList "42".toList) (.content (some 3))]
            patches := 1, file := none, unhandled := [] }) :=
  ⟨by decide, by decide, rfl⟩

/-! ## The `totd` command -/

theorem trackOfTheDayCalls_append (t1 t2 : List Event) :
    trackOfTheDayCalls (t1 ++ t2) = trackOfTheDayCalls t1 ++ trackOfTheDayCalls t2 := by
  simp [trackOfTheDayCalls]

theorem trackOfTheDayCalls_embeddedErrorMessage (o : Oracle) (ep : Endpoint) (err : Err)
    (s : St) :
    trackOfTheDayCalls (embeddedErrorMessage o ep err s).trace = trackOfTheDayCalls s.trace := by
  rw [embeddedErrorMessage_trace, trackOfTheDayCalls_append]
  simp [trackOfTheDayCalls]

theorem trackOfTheDayCalls_patchOrReport (o : Oracle) (ep : Endpoint) (b : PatchBody) (s : St) :
    trackOfTheDayCalls (patchOrReport o ep b s).trace = trackOfTheDayCalls s.trace := by
  unfold patchOrReport DiscordRequest
  cases o.patch s.patches with
  | none => simp [trackOfTheDayCalls, St.emit]
  | some err => simp [embeddedErrorMessage_trace, trackOfTheDayCalls, St.emit]

theorem trackOfTheDayCalls_totdPast (o : Oracle) (ep : Endpoint) (opt : CmdOption) (s : St)
    (f0 f1 f2 : Field) (more : List Field) (hfields : opt.options = some (f0 :: f1 :: f2 :: more)) :
    trackOfTheDayCalls (totdPast o ep opt s).2.trace =
      trackOfTheDayCalls s.trace ++
        [.date (if dateLt (some o.nowMs) (newDate o.tza f0.value (f1.value - 1) f2.value)
          then some o.nowMs else newDate o.tza f0.value (f1.value - 1) f2.value)] := by
  simp only [totdPast, hfields]
  split <;> split <;> (try split) <;>
    simp only [trackOfTheDayCalls_embeddedErrorMessage, St.emit, trackOfTheDayCalls_append] <;>
    simp [trackOfTheDayCalls]

theorem trackOfTheDayCalls_totd_past (o : Oracle) (req : Interaction) (file : Option Record)
    (d : Data) (opt : CmdOption) (rest : List CmdOption) (f0 f1 f2 : Field) (more : List Field)
    (hping : req.type ≠ o.responsePING) (htype : req.type = some APPLICATION_COMMAND)
    (hdata : req.data = some d) (hname : d.name = some "totd".toList)
    (hopts : d.options = some (opt :: rest)) (hpast : opt.name = "past".toList)
    (hfields : opt.options = some (f0 :: f1 :: f2 :: more)) (hsend : o.sendThrows = none) :
    trackOfTheDayCalls (interactions o req (St.init file)).2.trace =
      [.date (if dateLt (some o.nowMs) (newDate o.tza f0.value (f1.value - 1) f2.value)
          then some o.nowMs else newDate o.tza f0.value (f1.value - 1) f2.value)] := by
  have hping2 : ¬ some APPLICATION_COMMAND = o.responsePING := by rw [← htype]; exact hping
  have hc : ¬ some APPLICATION_COMMAND = some MESSAGE_COMPONENT := by decide
  have hn1 : ¬ some "totd".toList = some "test".toList := by decide
  have hn2 : ¬ some "totd".toList = some "tucker".toList := by decide
  have hp := trackOfTheDayCalls_totdPast o (.original req.token) opt
    ((St.init file).emit (.send .deferredChannelMessageWithSource)) f0 f1 f2 more hfields
  simp only [interactions, htype, if_neg hping2, if_true, commandBranch, hdata, hname, if_neg hn1,
    if_neg hn2, resSend, hsend, totdBody, hopts, hpast]
  rcases hd : totdPast o (.original req.token) opt
    ((St.init file).emit (.send .deferredChannelMessageWithSource)) with ⟨r, s1⟩
  rw [hd] at hp
  have hp2 : trackOfTheDayCalls s1.trace = [.date
      (if dateLt (some o.nowMs) (newDate o.tza f0.value (f1.value - 1) f2.value)
        then some o.nowMs else newDate o.tza f0.value (f1.value - 1) f2.value)] := by
    simpa [St.emit, St.init, trackOfTheDayCalls] using hp
  cases r with
  | error e => simpa [if_neg hc] using hp2
  | ok tj =>
    simp only
    cases o.embedTrackInfo tj with
    | error e => simpa [if_neg hc, St.emit, trackOfTheDayCalls_append, trackOfTheDayCalls] using hp2
    | ok body =>
      simp only [if_neg hc, trackOfTheDayCalls_patchOrReport]
      simpa [St.emit, trackOfTheDayCalls_append, trackOfTheDayCalls] using hp2

/-- C5: for a `totd` command with sub-option `past`, a date later than the
handler's current time is replaced by the current time in the call of
`trackmania.trackOfTheDay`, and a date between `startDate` and the current time
is passed as it is. -/
theorem totd_past_date_clamp (o : Oracle) (req : Interaction) (file : Option Record)
    (d : Data) (opt : CmdOption) (rest : List CmdOption) (f0 f1 f2 : Field) (more : List Field)
    (t : Int)
    (hping : req.type ≠ o.responsePING) (htype : req.type = some APPLICATION_COMMAND)
    (hdata : req.data = some d) (hname : d.name = some "totd".toList)
    (hopts : d.options = some (opt :: rest)) (hpast : opt.name = "past".toList)
    (hfields : opt.options = some (f0 :: f1 :: f2 :: more)) (hsend : o.sendThrows = none)
    (hbuilt : newDate o.tza f0.value (f1.value - 1) f2.value = some t)
    (hcase : o.nowMs < t ∨ ∃ start, startDate o.tza = some start ∧ start ≤ t ∧ t ≤ o.nowMs) :
    trackOfTheDayCalls (interactions o req (St.init file)).2.trace
      = [.date (some (if o.nowMs < t then o.nowMs else t))] := by
  rw [trackOfTheDayCalls_totd_past o req file d opt rest f0 f1 f2 more hping htype hdata hname
    hopts hpast hfields hsend, hbuilt]
  rcases hcase with h | ⟨start, _, _, h⟩
  · simp [dateLt, h]
  · simp [dateLt, not_lt.mpr h]

theorem totd_past_date_clamp_witness :
    trackOfTheDayCalls
        (interactions calmOracle (totdRequest [pastOption 2025 1 1]) (St.init none)).2.trace
      = [.date (some (if calmOracle.nowMs < 1735689600000 then calmOracle.nowMs
          else 1735689600000))] :=
  totd_past_date_clamp calmOracle (totdRequest [pastOption 2025 1 1]) none _
    (pastOption 2025 1 1) [] { value := 2025 } { value := 1 } { value := 1 } [] 1735689600000
    (by decide) rfl rfl rfl rfl rfl rfl rfl (by decide) (Or.inl (by decide))

/-- C2, on the code: for `totd past` with the date 2019-01-01 the handler calls
`embeddedErrorMessage` and then still calls `trackmania.trackOfTheDay` with that
date, and goes on to `embedTrackInfo` and a PATCH. -/
theorem totd_past_before_start_still_fetches :
    dateLt (newDate calmOracle.tza 2019 0 1) (startDate calmOracle.tza) = true ∧
      (interactions calmOracle (totdRequest [pastOption 2019 1 1]) (St.init none)).2.trace =
        [.send .deferredChannelMessageWithSource,
         .errorResponder (.original "tok".toList) .dateBeforeStart,
         .patch (.original "tok".toList) (.errorEmbed .dateBeforeStart),
         .trackOfTheDay (.date (some 1546300800000)),
         .embedTrackInfo (some { endTimestamp := 1701450000, payload := 1 }),
         .patch (.original "tok".toList) (.content (some 2))] := by
  decide

/-- C8, on the code: when `trackmania.trackOfTheDay` rejects during a `totd`
command without `past` and the cached record is not stale, the rejected promise
is never awaited: `embeddedErrorMessage` is not called and the rejection stays
unhandled.  With `past` and a date before `startDate`, `embeddedErrorMessage` is
called twice. -/
theorem totd_rejection_not_reported_once :
    (errorResponderCalls
        (interactions rejectingOracle (totdRequest [{ name := "today".toList, options := none }])
          (St.init (some freshRecord))).2.trace = [] ∧
      (interactions rejectingOracle (totdRequest [{ name := "today".toList, options := none }])
          (St.init (some freshRecord))).2.unhandled = [.failure 1]) ∧
      errorResponderCalls
        (interactions rejectingOracle (totdRequest [pastOption 2019 1 1]) (St.init none)).2.trace
        = [.dateBeforeStart, .failure 1] := by
  decide

theorem getUpToDateTOTDInfo_not_stale_witness :
    ∃ r, (getUpToDateTOTDInfo calmOracle (.ok freshRecord) (St.init (some staleRecord))).1 = .ok r
      ∧ nowSeconds calmOracle ≤ r.endTimestamp :=
  getUpToDateTOTDInfo_not_stale calmOracle (St.init (some staleRecord)) staleRecord freshRecord
    rfl rfl (by decide)

theorem getUpToDateTOTDInfo_fresh_witness :
    (getUpToDateTOTDInfo calmOracle (.error (.failure 1)) (St.init (some freshRecord))).1
        = .ok freshRecord ∧
      (getUpToDateTOTDInfo calmOracle (.error (.failure 1)) (St.init (some freshRecord))).2.trace
        = (St.init (some freshRecord)).trace ++ [.readFile] ∧
      (getUpToDateTOTDInfo calmOracle (.error (.failure 1)) (St.init (some freshRecord))).2.file
        = (St.init (some freshRecord)).file :=
  getUpToDateTOTDInfo_fresh calmOracle (.error (.failure 1)) (St.init (some freshRecord))
    freshRecord rfl (by decide)

end TrackmaniaBot
